import Mathlib

/-!
Verification of the yield-curve construction engine (bootstrapping,
interpolation, validation, builder) of the bond-loan-valuator repository.

Shallow embedding conventions:
- Python floats are modelled as real numbers; a float that may be NaN is
  modelled as an Option value (none stands for NaN), and a Python object that
  may fail float conversion is modelled by the PyVal type below.
- numpy argsort followed by NaN-mask removal is modelled as removing the NaN
  pairs first and then sorting the remaining pairs by maturity (the two
  commute up to the ordering of equal maturities, which numpy leaves
  unspecified as well since argsort uses an unstable quicksort).
- scipy interpolation backends that are external to the repository
  (CubicSpline, interp1d kind quadratic) are kept abstract as function
  parameters of the model; the linear interp1d path, which the repository
  relies on as the final fallback, is modelled concretely as standard
  piecewise-linear interpolation with end-segment extrapolation.
- Functions that can raise return Except; callers that catch exceptions
  pattern-match on the error case.
-/

namespace BondCurve

/-- Model of a Python list element passed to validate_curve_data: a finite
float, a NaN, or a value that fails conversion to float. -/
inductive PyVal where
  | num (x : ℝ)
  | nan
  | nonNumeric

/-- True when float conversion of the value fails, as tested by the
try/except around np.array(..., dtype=float). -/
def PyVal.isNonNumeric : PyVal → Bool
  | .nonNumeric => true
  | _ => false

/-- True when the value is a number (not NaN); models the complement of
np.isnan on a converted value. -/
def PyVal.isNum : PyVal → Bool
  | .num _ => true
  | _ => false

/-- The numeric content of a PyVal, when it is a plain number. -/
def PyVal.toNum : PyVal → Option ℝ
  | .num x => some x
  | _ => none

/-- True when the value is a number strictly below zero; NaN compares false
under numpy ordering, matching np.any(maturities < 0). -/
noncomputable def PyVal.isNegative : PyVal → Bool
  | .num x => decide (x < 0)
  | _ => false

/-- The (maturity, value) pairs where neither side is NaN, in input order;
models the valid_mask filtering of the two parallel numpy arrays. -/
def validPairs (ms ys : List (Option ℝ)) : List (ℝ × ℝ) :=
  (ms.zip ys).filterMap fun p =>
    match p with
    | (some m, some y) => some (m, y)
    | _ => none

/-- Comparison of data points by maturity, the key used by np.argsort. -/
def byFst (a b : ℝ × ℝ) : Prop := a.1 ≤ b.1

noncomputable instance : DecidableRel byFst :=
  fun a b => inferInstanceAs (Decidable (a.1 ≤ b.1))

instance : IsTotal (ℝ × ℝ) byFst := ⟨fun a b => le_total a.1 b.1⟩

instance : IsTrans (ℝ × ℝ) byFst := ⟨fun _ _ _ => le_trans⟩

/-- Sorting of the data points ascending by maturity; models the reordering
of both arrays by np.argsort of the maturities. -/
noncomputable def sortPairs (ps : List (ℝ × ℝ)) : List (ℝ × ℝ) :=
  ps.insertionSort byFst

/-- Minimum of a numpy array, as used by rates.min(); defined on nonempty
lists, with an irrelevant default for the empty list. -/
noncomputable def listMin : List ℝ → ℝ
  | [] => 0
  | x :: xs => xs.foldl min x

/-- Maximum of a numpy array, as used by rates.max(). -/
noncomputable def listMax : List ℝ → ℝ
  | [] => 0
  | x :: xs => xs.foldl max x

/-- np.clip of a scalar: numpy computes minimum(maximum(x, lo), hi), which
returns hi whenever lo exceeds hi. -/
noncomputable def npClip (x lo hi : ℝ) : ℝ := min (max x lo) hi

/-- np.linspace a b n: n evenly spaced points from a to b inclusive. -/
noncomputable def linspace (a b : ℝ) (n : ℕ) : List ℝ :=
  (List.range n).map fun i : ℕ => a + (i : ℝ) * (b - a) / ((n : ℝ) - 1)

/-- Piecewise-linear interpolation with end-segment extrapolation over knots
sorted by the first component; models scipy interp1d kind linear with
fill_value extrapolate, the final fallback of the interpolation ladder. -/
noncomputable def linearInterp : List (ℝ × ℝ) → ℝ → ℝ
  | [], _ => 0
  | [(_, y)], _ => y
  | (x1, y1) :: (x2, y2) :: rest, t =>
    if t ≤ x2 ∨ rest = [] then y1 + (y2 - y1) * (t - x1) / (x2 - x1)
    else linearInterp ((x2, y2) :: rest) t

/-- Forward-rate loop of the private helper of the bootstrapper: entry 0 is
the first zero rate; entry i for 1 <= i < len(maturities) applies the
forward formula when the maturity increased, else falls back to the zero
rate; entries beyond len(maturities) keep the np.zeros_like initial value. -/
noncomputable def calculate_forward_rates (ms rs : List ℝ) : List ℝ :=
  if ms.length < 2 then rs
  else (List.range rs.length).map fun i =>
    if i = 0 then rs.getD 0 0
    else if i < ms.length then
      let t1 := ms.getD (i - 1) 0
      let t2 := ms.getD i 0
      let r1 := rs.getD (i - 1) 0 / 100
      let r2 := rs.getD i 0 / 100
      if t1 < t2 then ((r2 * t2 - r1 * t1) / (t2 - t1)) * 100 else rs.getD i 0
    else 0

/-- The three parallel output arrays of bootstrap_zero_curve. -/
structure BootstrapResult where
  zero_rates : List ℝ
  discount_factors : List ℝ
  forward_rates : List ℝ

/-- bootstrap_zero_curve of the YieldCurveBootstrapper: length check, raw
count check, sort by maturity, NaN-pair removal, valid count check, identity
zero rates, exponential discount factors, forward rates. -/
noncomputable def bootstrap_zero_curve (ms ys : List (Option ℝ)) :
    Except String BootstrapResult :=
  if ms.length ≠ ys.length then
    .error "Maturities and yields must have the same length"
  else if ms.length < 2 then
    .error "Need at least 2 data points for bootstrapping"
  else
    let ps := sortPairs (validPairs ms ys)
    if ps.length < 2 then
      .error "Not enough valid data points after removing NaNs"
    else
      let m := ps.map Prod.fst
      let z := ps.map Prod.snd
      .ok ⟨z, List.zipWith (fun r t => Real.exp (-r / 100 * t)) z m,
        calculate_forward_rates m z⟩

/-- The bootstrapper object: its configured interpolation method, together
with the two external scipy interpolation backends (CubicSpline and interp1d
kind quadratic) it may dispatch to; these are library code outside the
repository and are therefore kept abstract. -/
structure YieldCurveBootstrapper where
  interpolation_method : String
  cubicEval : List (ℝ × ℝ) → ℝ → ℝ
  quadEval : List (ℝ × ℝ) → ℝ → ℝ

/-- interpolate_curve of the YieldCurveBootstrapper: NaN-pair removal, valid
count check, sort, default daily target grid when none is supplied, method
ladder (cubic needs 4 points, quadratic needs 3, otherwise linear), and the
final clip of the interpolated rates to the envelope. A length mismatch of
the two inputs raises inside numpy when the masks are combined, modelled as
the broadcast error case. -/
noncomputable def interpolate_curve (B : YieldCurveBootstrapper)
    (ms rs : List (Option ℝ)) (target : Option (List ℝ)) :
    Except String (List ℝ × List ℝ) :=
  if ms.length ≠ rs.length then
    .error "operands could not be broadcast together"
  else
    let ps := sortPairs (validPairs ms rs)
    if ps.length < 2 then
      .error "Need at least 2 valid points for interpolation"
    else
      let m := ps.map Prod.fst
      let r := ps.map Prod.snd
      let tms :=
        match target with
        | none =>
          linspace (m.headD 0) (m.getLastD 0)
            ((⌊(m.getLastD 0 - m.headD 0) * 365⌋).toNat + 1)
        | some t => t
      let f : ℝ → ℝ :=
        if B.interpolation_method = "cubic" ∧ 4 ≤ ps.length then B.cubicEval ps
        else if B.interpolation_method = "quadratic" ∧ 3 ≤ ps.length then
          B.quadEval ps
        else linearInterp ps
      let lo := min (listMin r) 0
      let hi := listMax r * 1.5
      .ok (tms, tms.map fun t => npClip (f t) lo hi)

/-- Window size of the moving average of smooth_curve: max of 3 and the
int() truncation of len times factor, then incremented when even. Python
int() truncates toward zero; Int.toNat of the floor agrees with it after
the max with 3 because both are at most 0 for negative products. -/
noncomputable def smoothWindow (rs : List ℝ) (sf : ℝ) : ℕ :=
  if max 3 (Int.toNat ⌊(rs.length : ℝ) * sf⌋) % 2 = 0 then
    max 3 (Int.toNat ⌊(rs.length : ℝ) * sf⌋) + 1
  else max 3 (Int.toNat ⌊(rs.length : ℝ) * sf⌋)

/-- smooth_curve of the YieldCurveBootstrapper: inputs of fewer than 3 rates
are returned unchanged; otherwise a centered moving average with the window
of smoothWindow is applied to the interior points while points within half
a window of either boundary keep their value. -/
noncomputable def smooth_curve (ms rs : List ℝ) (sf : ℝ) : List ℝ :=
  if rs.length < 3 then rs
  else
    (List.range rs.length).map fun i =>
      if smoothWindow rs sf / 2 ≤ i ∧
          i < rs.length - smoothWindow rs sf / 2 then
        ((rs.drop (i - smoothWindow rs sf / 2)).take
          (smoothWindow rs sf)).sum / (smoothWindow rs sf : ℝ)
      else rs.getD i 0

/-- validate_curve_data: the six checks in source order, first failure wins. -/
noncomputable def validate_curve_data (ms ys : List PyVal) (min_points : ℕ) :
    Bool × String :=
  if ms.length ≠ ys.length then
    (false, "Maturities and yields have different lengths")
  else if ms.length < min_points then
    (false, "Insufficient data points (need at least " ++
      toString min_points ++ ")")
  else if (ms ++ ys).any PyVal.isNonNumeric then
    (false, "Maturities and yields must be numeric")
  else if ms.any PyVal.isNegative then
    (false, "Maturities cannot be negative")
  else if ((ms.zip ys).countP fun p => p.1.isNum && p.2.isNum) < min_points then
    (false, "Insufficient valid data points (need at least " ++
      toString min_points ++ ")")
  else if (ms.filterMap PyVal.toNum).dedup.length <
      ((ms.zip ys).countP fun p => p.1.isNum && p.2.isNum) then
    (false, "Duplicate maturities detected")
  else
    (true, "")

/-- Minimum point count required by the builder, from the configuration. -/
def MIN_DATA_POINTS : ℕ := 3

/-- Interpolation method configured for the builder. -/
def BOOTSTRAPPING_INTERPOLATION_METHOD : String := "cubic"

/-- Tenor label to maturity-in-years lookup for Treasury series, from the
configuration. -/
noncomputable def TREASURY_MATURITIES : String → Option ℝ := fun t =>
  if t = "1M" then some (1 / 12)
  else if t = "3M" then some (3 / 12)
  else if t = "6M" then some (6 / 12)
  else if t = "1Y" then some 1
  else if t = "2Y" then some 2
  else if t = "3Y" then some 3
  else if t = "5Y" then some 5
  else if t = "7Y" then some 7
  else if t = "10Y" then some 10
  else if t = "20Y" then some 20
  else if t = "30Y" then some 30
  else none

/-- A row of the raw_yield_data table: series identity, tenor label,
data-type tag, date and optional value (None for a missing observation). -/
structure RawYieldData where
  series_id : String
  series_name : String
  data_type : String
  date : ℕ
  value : Option ℝ

/-- The curve dictionary assembled by build_curve on success. -/
structure CurveData where
  curve_type : String
  curve_date : ℕ
  maturities : List ℝ
  yields : List ℝ
  interpolated_maturities : List ℝ
  interpolated_yields : List ℝ
  discount_factors : List ℝ
  forward_rates : List ℝ

/-- The raw rows build_curve queries: treasury rows for the given date. -/
def rawForDate (db : List RawYieldData) (d : ℕ) : List RawYieldData :=
  db.filter fun r => r.data_type == "treasury" && r.date == d

/-- The (maturity, yield) pairs build_curve extracts from the raw rows:
tenors present in the lookup table whose value is not null, in row order. -/
noncomputable def buildPairs (db : List RawYieldData) (d : ℕ) :
    List (ℝ × ℝ) :=
  (rawForDate db d).filterMap fun rc =>
    match TREASURY_MATURITIES rc.series_name, rc.value with
    | some m, some v => some (m, v)
    | _, _ => none

/-- build_curve of the TreasuryCurveBuilder: query the raw rows for the
date, return none when empty; extract (maturity, value) for tenors present
in the lookup with a non-null value; validate with the configured minimum;
bootstrap and interpolate inside a try/except whose handler returns none.
The database session is modelled as the list of stored rows; the two scipy
backends of the bootstrapper are passed through as parameters. -/
noncomputable def build_curve (cubicEval quadEval : List (ℝ × ℝ) → ℝ → ℝ)
    (db : List RawYieldData) (d : ℕ) : Option CurveData :=
  if (rawForDate db d).isEmpty then none
  else if (validate_curve_data
      (((buildPairs db d).map Prod.fst).map PyVal.num)
      (((buildPairs db d).map Prod.snd).map PyVal.num)
      MIN_DATA_POINTS).1 = false then none
  else
    match bootstrap_zero_curve (((buildPairs db d).map Prod.fst).map some)
        (((buildPairs db d).map Prod.snd).map some) with
    | .error _ => none
    | .ok res =>
      match interpolate_curve
          ⟨BOOTSTRAPPING_INTERPOLATION_METHOD, cubicEval, quadEval⟩
          (((buildPairs db d).map Prod.fst).map some)
          (res.zero_rates.map some) none with
      | .error _ => none
      | .ok (itms, itys) =>
        some ⟨"treasury", d, (buildPairs db d).map Prod.fst,
          (buildPairs db d).map Prod.snd, itms, itys,
          res.discount_factors, res.forward_rates⟩

/-- A stored bootstrapped_curves row; curve_metadata optionally holds the
interpolated maturities and yields lists. -/
structure BootstrappedCurveRec where
  curve_type : String
  curve_date : ℕ
  maturities : List ℝ
  yields : List ℝ
  discount_factors : Option (List ℝ)
  forward_rates : Option (List ℝ)
  curve_metadata : Option (List ℝ × List ℝ)

/-- The response dictionary returned by get_curve. -/
structure CurveResponse where
  curve_type : String
  curve_date : ℕ
  maturities : List ℝ
  yields : List ℝ
  discount_factors : Option (List ℝ)
  forward_rates : Option (List ℝ)
  original_maturities : List ℝ
  original_yields : List ℝ

/-- Index selection of the downsampling step: np.linspace(0, n-1, m) cast to
int. The first index is 0 and, because numpy sets the linspace endpoint to
the stop value exactly, the last index is n-1; interior floats are modelled
by exact rational floor, that is Nat division. With m = 1 numpy yields the
single index 0, which Nat division by zero also gives. -/
def downsampleIndices (n m : ℕ) : List ℕ :=
  (List.range m).map fun k => k * (n - 1) / (m - 1)

/-- get_curve of the TreasuryCurveBuilder: look up the stored record for the
date; prefer the interpolated series from the metadata; downsample when
max_points is truthy, the interpolated list is truthy and strictly shorter
than the list; fall back to the sparse arrays when the (possibly
downsampled) interpolated lists are falsy, and always echo the original
sparse arrays. -/
def get_curve (db : List BootstrappedCurveRec) (d : ℕ)
    (max_points : Option ℕ) : Option CurveResponse :=
  match db.find? fun c => c.curve_type == "treasury" && c.curve_date == d with
  | none => none
  | some c =>
    let ims0 : Option (List ℝ) := c.curve_metadata.map Prod.fst
    let iys0 : Option (List ℝ) := c.curve_metadata.map Prod.snd
    let down : Option (List ℝ) × Option (List ℝ) :=
      match max_points, ims0, iys0 with
      | some mp, some ims, some iys =>
        if 0 < mp ∧ ims.isEmpty = false ∧ mp < ims.length then
          (some ((downsampleIndices ims.length mp).map fun i => ims.getD i 0),
           some ((downsampleIndices ims.length mp).map fun i => iys.getD i 0))
        else (some ims, some iys)
      | _, _, _ => (ims0, iys0)
    let ims1 := down.1
    let iys1 := down.2
    some ⟨c.curve_type, c.curve_date,
      match ims1 with
      | some l => if l.isEmpty then c.maturities else l
      | none => c.maturities,
      match iys1 with
      | some l => if l.isEmpty then c.yields else l
      | none => c.yields,
      c.discount_factors, c.forward_rates, c.maturities, c.yields⟩

/-- Claim-side window size, following the claim wording: round of len times
factor rather than the int() truncation the source performs. -/
noncomputable def smoothWindowClaim (rs : List ℝ) (sf : ℝ) : ℕ :=
  if max 3 (round ((rs.length : ℝ) * sf)).toNat % 2 = 0 then
    max 3 (round ((rs.length : ℝ) * sf)).toNat + 1
  else max 3 (round ((rs.length : ℝ) * sf)).toNat

/-- Claim-side variant of smooth_curve, using the claim window; compared
against smooth_curve to settle the claim. -/
noncomputable def smooth_curve_claim (rs : List ℝ) (sf : ℝ) : List ℝ :=
  if rs.length < 3 then rs
  else
    (List.range rs.length).map fun i =>
      if smoothWindowClaim rs sf / 2 ≤ i ∧
          i < rs.length - smoothWindowClaim rs sf / 2 then
        ((rs.drop (i - smoothWindowClaim rs sf / 2)).take
          (smoothWindowClaim rs sf)).sum / (smoothWindowClaim rs sf : ℝ)
      else rs.getD i 0

/-- Claim-side ordered list of the six validation checks, each a failure
condition paired with its reason, in the order the claim states. -/
noncomputable def validateChecks (ms ys : List PyVal) (mp : ℕ) :
    List (Bool × String) :=
  [(decide (ms.length ≠ ys.length),
      "Maturities and yields have different lengths"),
   (decide (ms.length < mp),
      "Insufficient data points (need at least " ++ toString mp ++ ")"),
   ((ms ++ ys).any PyVal.isNonNumeric,
      "Maturities and yields must be numeric"),
   (ms.any PyVal.isNegative, "Maturities cannot be negative"),
   (decide (((ms.zip ys).countP fun p => p.1.isNum && p.2.isNum) < mp),
      "Insufficient valid data points (need at least " ++ toString mp ++ ")"),
   (decide ((ms.filterMap PyVal.toNum).dedup.length <
        ((ms.zip ys).countP fun p => p.1.isNum && p.2.isNum)),
      "Duplicate maturities detected")]

/-- Verdict and reason of the first failing check of an ordered check list;
the pass verdict carries the empty reason. -/
def firstFail (checks : List (Bool × String)) : Bool × String :=
  match checks.find? fun c => c.1 with
  | some c => (false, c.2)
  | none => (true, "")

/-! Helper lemmas about the embedded operations. -/

theorem validPairs_length_le (ms ys : List (Option ℝ)) :
    (validPairs ms ys).length ≤ ms.length :=
  le_trans (List.length_filterMap_le _ _)
    (by rw [List.length_zip]; exact min_le_left _ _)

theorem sortPairs_perm (ps : List (ℝ × ℝ)) : (sortPairs ps).Perm ps :=
  List.perm_insertionSort _ _

theorem sortPairs_length (ps : List (ℝ × ℝ)) :
    (sortPairs ps).length = ps.length :=
  List.length_insertionSort _ _

theorem sortPairs_sorted (ps : List (ℝ × ℝ)) :
    (sortPairs ps).Sorted byFst :=
  List.sorted_insertionSort _ _

theorem sortPairs_sorted_fst (ps : List (ℝ × ℝ)) :
    ((sortPairs ps).map Prod.fst).Sorted (· ≤ ·) := by
  have h := sortPairs_sorted ps
  rw [List.Sorted, List.pairwise_map]
  exact h

theorem getD_range_map {α : Type} (f : ℕ → α) {n i : ℕ} (h : i < n) (d : α) :
    ((List.range n).map f).getD i d = f i := by
  rw [List.getD_eq_getElem?_getD, List.getElem?_map]
  simp [h]

theorem headD_range_map {α : Type} (f : ℕ → α) {n : ℕ} (h : 0 < n) (d : α) :
    ((List.range n).map f).headD d = f 0 := by
  rw [List.headD_eq_head?]
  cases n with
  | zero => omega
  | succ m => simp [List.range_succ_eq_map]

theorem getLastD_range_map {α : Type} (f : ℕ → α) {n : ℕ} (h : 0 < n)
    (d : α) : ((List.range n).map f).getLastD d = f (n - 1) := by
  rw [List.getLastD_eq_getLast? _ _, List.getLast?_eq_getElem?,
    List.getElem?_map]
  simp [h, Nat.sub_lt h]

theorem foldl_min_le_init (xs : List ℝ) (a : ℝ) : xs.foldl min a ≤ a := by
  induction xs generalizing a with
  | nil => simp
  | cons x xs ih => exact le_trans (ih _) (min_le_left _ _)

theorem foldl_min_le_mem {xs : List ℝ} {x : ℝ} (h : x ∈ xs) (a : ℝ) :
    xs.foldl min a ≤ x := by
  induction xs generalizing a with
  | nil => cases h
  | cons y ys ih =>
    rcases List.mem_cons.mp h with rfl | h2
    · exact le_trans (foldl_min_le_init ys _) (min_le_right _ _)
    · exact ih h2 _

theorem listMin_le {l : List ℝ} {x : ℝ} (h : x ∈ l) : listMin l ≤ x := by
  cases l with
  | nil => cases h
  | cons a t =>
    rcases List.mem_cons.mp h with rfl | h2
    · exact foldl_min_le_init t _
    · exact foldl_min_le_mem h2 _

theorem init_le_foldl_max (xs : List ℝ) (a : ℝ) : a ≤ xs.foldl max a := by
  induction xs generalizing a with
  | nil => simp
  | cons x xs ih => exact le_trans (le_max_left _ _) (ih _)

theorem mem_le_foldl_max {xs : List ℝ} {x : ℝ} (h : x ∈ xs) (a : ℝ) :
    x ≤ xs.foldl max a := by
  induction xs generalizing a with
  | nil => cases h
  | cons y ys ih =>
    rcases List.mem_cons.mp h with rfl | h2
    · exact le_trans (le_max_right _ _) (init_le_foldl_max ys _)
    · exact ih h2 _

theorem le_listMax {l : List ℝ} {x : ℝ} (h : x ∈ l) : x ≤ listMax l := by
  cases l with
  | nil => cases h
  | cons a t =>
    rcases List.mem_cons.mp h with rfl | h2
    · exact init_le_foldl_max t _
    · exact mem_le_foldl_max h2 _

theorem npClip_le (x lo hi : ℝ) : npClip x lo hi ≤ hi := min_le_right _ _

theorem le_npClip (x lo hi : ℝ) (h : lo ≤ hi) : lo ≤ npClip x lo hi :=
  le_min (le_max_right x lo) h

theorem npClip_eq_self {x lo hi : ℝ} (h1 : lo ≤ x) (h2 : x ≤ hi) :
    npClip x lo hi = x := by
  unfold npClip
  rw [max_eq_left h1, min_eq_left h2]

theorem linspace_length (a b : ℝ) (n : ℕ) : (linspace a b n).length = n := by
  simp [linspace]

theorem linspace_headD {n : ℕ} (a b : ℝ) (h : 0 < n) :
    (linspace a b n).headD 0 = a := by
  unfold linspace
  rw [headD_range_map _ h]
  simp

theorem linspace_getLastD {n : ℕ} (a b : ℝ) (h : 2 ≤ n) :
    (linspace a b n).getLastD 0 = b := by
  unfold linspace
  rw [getLastD_range_map _ (by omega)]
  have hn : ((n : ℝ) - 1) ≠ 0 := by
    have : (2 : ℝ) ≤ (n : ℝ) := by exact_mod_cast h
    linarith
  have hcast : ((n - 1 : ℕ) : ℝ) = (n : ℝ) - 1 := by
    have : 1 ≤ n := by omega
    push_cast [this]
    ring
  rw [hcast, mul_comm, mul_div_assoc, div_self hn, mul_one]
  ring

theorem linspace_getD {a b : ℝ} {n i : ℕ} (h : i < n) :
    (linspace a b n).getD i 0 = a + (i : ℝ) * (b - a) / ((n : ℝ) - 1) := by
  unfold linspace
  rw [getD_range_map _ h]

theorem linspace_one (a b : ℝ) : linspace a b 1 = [a] := by
  unfold linspace
  rw [show List.range 1 = [0] by decide, List.map_cons, List.map_nil]
  norm_num

theorem linspace_mem {a b : ℝ} {n : ℕ} (hab : a ≤ b) {t : ℝ}
    (ht : t ∈ linspace a b n) : a ≤ t ∧ t ≤ b := by
  unfold linspace at ht
  rcases List.mem_map.mp ht with ⟨i, hi, rfl⟩
  have hin : i < n := List.mem_range.mp hi
  rcases Nat.lt_or_ge i 1 with h1 | h1
  · interval_cases i
    simp [hab]
  · have hn2 : 2 ≤ n := by omega
    have hd : (0 : ℝ) < (n : ℝ) - 1 := by
      have : (2 : ℝ) ≤ (n : ℝ) := by exact_mod_cast hn2
      linarith
    have hnum0 : (0 : ℝ) ≤ (i : ℝ) * (b - a) := by
      have : (0 : ℝ) ≤ (i : ℝ) := Nat.cast_nonneg i
      nlinarith
    have hfrac0 : (0 : ℝ) ≤ (i : ℝ) * (b - a) / ((n : ℝ) - 1) :=
      div_nonneg hnum0 (le_of_lt hd)
    have hile : (i : ℝ) ≤ (n : ℝ) - 1 := by
      have : (i : ℝ) + 1 ≤ (n : ℝ) := by exact_mod_cast hin
      linarith
    have hnum1 : (i : ℝ) * (b - a) ≤ ((n : ℝ) - 1) * (b - a) := by nlinarith
    have hfrac1 : (i : ℝ) * (b - a) / ((n : ℝ) - 1) ≤ b - a := by
      rw [div_le_iff hd]
      nlinarith
    constructor <;> linarith

theorem sorted_headD_le_getLastD {l : List ℝ} (hl : l ≠ [])
    (hs : l.Sorted (· ≤ ·)) : l.headD 0 ≤ l.getLastD 0 := by
  cases l with
  | nil => exact absurd rfl hl
  | cons a t =>
    cases t with
    | nil => simp
    | cons b u =>
      have hmem : (b :: u).getLast (by simp) ∈ b :: u := List.getLast_mem _
      have hrel := (List.pairwise_cons.mp hs).1
      have : (a :: b :: u).getLastD 0 = (b :: u).getLast (by simp) := by
        simp [List.getLastD_eq_getLast? _ _, List.getLast?_eq_getLast]
      rw [this]
      exact hrel _ hmem

theorem linearInterp_knot :
    ∀ ps : List (ℝ × ℝ), (ps.map Prod.fst).Sorted (· < ·) →
      ∀ p ∈ ps, linearInterp ps p.1 = p.2
  | [], _, p, hp => absurd hp (List.not_mem_nil p)
  | [(x, y)], _, p, hp => by
    rcases List.mem_singleton.mp hp with rfl
    simp [linearInterp]
  | (x1, y1) :: (x2, y2) :: rest, hs, p, hp => by
    have hs1 : x1 < x2 := by
      have := (List.pairwise_cons.mp hs).1
      exact this x2 (by simp)
    have hs2 : ∀ z ∈ rest.map Prod.fst, x2 < z := by
      have htail := (List.pairwise_cons.mp hs).2
      exact (List.pairwise_cons.mp htail).1
    rcases List.mem_cons.mp hp with rfl | hp2
    · have hc : x1 ≤ x2 ∨ rest = [] := Or.inl (le_of_lt hs1)
      simp only [linearInterp, if_pos hc]
      rw [sub_self, mul_zero, zero_div, add_zero]
    · rcases List.mem_cons.mp hp2 with rfl | hp3
      · have hc : x2 ≤ x2 ∨ rest = [] := Or.inl le_rfl
        simp only [linearInterp, if_pos hc]
        rw [mul_div_assoc, div_self (by linarith : x2 - x1 ≠ 0)]
        ring
      · have hx : x2 < p.1 := hs2 p.1 (List.mem_map_of_mem _ hp3)
        have hrest : rest ≠ [] := by
          intro h0
          rw [h0] at hp3
          exact absurd hp3 (List.not_mem_nil p)
        have hc : ¬(p.1 ≤ x2 ∨ rest = []) := by
          push_neg
          exact ⟨hx, hrest⟩
        simp only [linearInterp, if_neg hc]
        exact linearInterp_knot ((x2, y2) :: rest)
          ((List.pairwise_cons.mp hs).2) p hp2

theorem isOk_ok {ε α : Type} (a : α) :
    (Except.ok a : Except ε α).isOk = true := rfl

theorem isOk_error {ε α : Type} (e : ε) :
    (Except.error e : Except ε α).isOk = false := rfl

theorem getD_eq_getElem {α : Type} (l : List α) (d : α) {i : ℕ}
    (h : i < l.length) : l.getD i d = l[i] := by
  rw [List.getD_eq_getElem?_getD, List.getElem?_eq_getElem h]
  rfl

/-- Unfolding of bootstrap_zero_curve on inputs that pass all three checks. -/
theorem bootstrap_ok (ms ys : List (Option ℝ))
    (h1 : ms.length = ys.length) (h2 : 2 ≤ (validPairs ms ys).length) :
    bootstrap_zero_curve ms ys =
      .ok ⟨(sortPairs (validPairs ms ys)).map Prod.snd,
        List.zipWith (fun r t => Real.exp (-r / 100 * t))
          ((sortPairs (validPairs ms ys)).map Prod.snd)
          ((sortPairs (validPairs ms ys)).map Prod.fst),
        calculate_forward_rates ((sortPairs (validPairs ms ys)).map Prod.fst)
          ((sortPairs (validPairs ms ys)).map Prod.snd)⟩ := by
  have hraw : ¬ms.length < 2 :=
    not_lt.mpr (le_trans h2 (validPairs_length_le ms ys))
  have hps : ¬(sortPairs (validPairs ms ys)).length < 2 := by
    rw [sortPairs_length]
    exact not_lt.mpr h2
  unfold bootstrap_zero_curve
  rw [if_neg (by simpa using h1), if_neg hraw, if_neg hps]

/-- C1: on every valid input (equal lengths, at least two non-NaN pairs),
bootstrap_zero_curve succeeds, its zero rates are exactly the input yields
reordered ascending by maturity with NaN pairs removed (identity mapping),
and each discount factor equals exp of minus the zero rate over 100 times
the matching maturity. -/
theorem C1_bootstrap_identity_and_discounts (ms ys : List (Option ℝ))
    (h1 : ms.length = ys.length) (h2 : 2 ≤ (validPairs ms ys).length) :
    ∃ res : BootstrapResult,
      bootstrap_zero_curve ms ys = .ok res ∧
      res.zero_rates = (sortPairs (validPairs ms ys)).map Prod.snd ∧
      (sortPairs (validPairs ms ys)).Perm (validPairs ms ys) ∧
      ((sortPairs (validPairs ms ys)).map Prod.fst).Sorted (· ≤ ·) ∧
      res.discount_factors.length = (validPairs ms ys).length ∧
      ∀ i < res.discount_factors.length,
        res.discount_factors.getD i 0 =
          Real.exp (-(res.zero_rates.getD i 0) / 100 *
            (((sortPairs (validPairs ms ys)).map Prod.fst).getD i 0)) := by
  refine ⟨_, bootstrap_ok ms ys h1 h2, rfl, sortPairs_perm _,
    sortPairs_sorted_fst _, ?_, ?_⟩
  · simp [List.length_zipWith, sortPairs_length]
  · intro i hi
    have hlen : (List.zipWith (fun r t => Real.exp (-r / 100 * t))
        ((sortPairs (validPairs ms ys)).map Prod.snd)
        ((sortPairs (validPairs ms ys)).map Prod.fst)).length =
        (sortPairs (validPairs ms ys)).length := by
      simp [List.length_zipWith]
    rw [hlen] at hi
    have hiz : i < ((sortPairs (validPairs ms ys)).map Prod.snd).length := by
      simpa using hi
    have him : i < ((sortPairs (validPairs ms ys)).map Prod.fst).length := by
      simpa using hi
    rw [getD_eq_getElem _ _ (by simp [List.length_zipWith]; omega),
      getD_eq_getElem _ _ hiz, getD_eq_getElem _ _ him,
      List.getElem_zipWith]

/-- C2: on every valid input, the forward-rate array has the length of the
zero-rate array, its first entry equals the first zero rate, and each later
entry is the discrete forward formula when the adjacent maturity strictly
increased, else falls back to the zero rate at that point. -/
theorem C2_forward_rates (ms ys : List (Option ℝ))
    (h1 : ms.length = ys.length) (h2 : 2 ≤ (validPairs ms ys).length) :
    ∃ res : BootstrapResult,
      bootstrap_zero_curve ms ys = .ok res ∧
      res.forward_rates.length = res.zero_rates.length ∧
      res.forward_rates.getD 0 0 = res.zero_rates.getD 0 0 ∧
      (∀ i, 1 ≤ i → i < res.zero_rates.length →
        (let m := (sortPairs (validPairs ms ys)).map Prod.fst
         let t1 := m.getD (i - 1) 0
         let t2 := m.getD i 0
         let r1 := res.zero_rates.getD (i - 1) 0 / 100
         let r2 := res.zero_rates.getD i 0 / 100
         if t1 < t2 then
           res.forward_rates.getD i 0 = ((r2 * t2 - r1 * t1) / (t2 - t1)) * 100
         else
           res.forward_rates.getD i 0 = res.zero_rates.getD i 0)) := by
  refine ⟨_, bootstrap_ok ms ys h1 h2, ?_, ?_, ?_⟩
  all_goals
    have hm2 : ¬((sortPairs (validPairs ms ys)).map Prod.fst).length < 2 := by
      rw [List.length_map, sortPairs_length]
      exact not_lt.mpr h2
  · simp only [calculate_forward_rates, if_neg hm2]
    simp
  · have h0 : 0 < ((sortPairs (validPairs ms ys)).map Prod.snd).length := by
      rw [List.length_map, sortPairs_length]
      omega
    simp only [calculate_forward_rates, if_neg hm2]
    rw [getD_range_map _ (by simpa using h0)]
    simp
  · intro i hi1 hi
    have hiz : i < ((sortPairs (validPairs ms ys)).map Prod.snd).length := hi
    simp only [calculate_forward_rates, if_neg hm2]
    rw [getD_range_map _ hiz]
    have hne : ¬i = 0 := by omega
    rw [if_neg hne]
    have him : i < ((sortPairs (validPairs ms ys)).map Prod.fst).length := by
      simpa using hiz
    rw [if_pos him]
    split <;> rfl

/-- Witness for C1: the bootstrap theorem instantiated at a concrete valid
two-point input. -/
theorem C1_witness :
    ∃ res : BootstrapResult,
      bootstrap_zero_curve [some 1, some 2] [some (4.5 : ℝ), some 4.7]
          = .ok res ∧
      res.zero_rates = (sortPairs (validPairs [some 1, some 2]
        [some (4.5 : ℝ), some 4.7])).map Prod.snd ∧
      (sortPairs (validPairs [some 1, some 2]
        [some (4.5 : ℝ), some 4.7])).Perm (validPairs [some 1, some 2]
          [some (4.5 : ℝ), some 4.7]) ∧
      ((sortPairs (validPairs [some 1, some 2]
        [some (4.5 : ℝ), some 4.7])).map Prod.fst).Sorted (· ≤ ·) ∧
      res.discount_factors.length = (validPairs [some 1, some 2]
        [some (4.5 : ℝ), some 4.7]).length ∧
      ∀ i < res.discount_factors.length,
        res.discount_factors.getD i 0 =
          Real.exp (-(res.zero_rates.getD i 0) / 100 *
            (((sortPairs (validPairs [some 1, some 2]
              [some (4.5 : ℝ), some 4.7])).map Prod.fst).getD i 0)) :=
  C1_bootstrap_identity_and_discounts _ _ rfl (by decide)

/-- Witness for C2: the forward-rate theorem instantiated at a concrete
valid two-point input. -/
theorem C2_witness :
    ∃ res : BootstrapResult,
      bootstrap_zero_curve [some 1, some 2] [some (4.2 : ℝ), some 4.4]
          = .ok res ∧
      res.forward_rates.length = res.zero_rates.length ∧
      res.forward_rates.getD 0 0 = res.zero_rates.getD 0 0 ∧
      (∀ i, 1 ≤ i → i < res.zero_rates.length →
        (let m := (sortPairs (validPairs [some 1, some 2]
          [some (4.2 : ℝ), some 4.4])).map Prod.fst
         let t1 := m.getD (i - 1) 0
         let t2 := m.getD i 0
         let r1 := res.zero_rates.getD (i - 1) 0 / 100
         let r2 := res.zero_rates.getD i 0 / 100
         if t1 < t2 then
           res.forward_rates.getD i 0 = ((r2 * t2 - r1 * t1) / (t2 - t1)) * 100
         else
           res.forward_rates.getD i 0 = res.zero_rates.getD i 0)) :=
  C2_forward_rates _ _ rfl (by decide)

/-- C3: bootstrap_zero_curve succeeds exactly when the two inputs have equal
length and at least two non-NaN pairs remain; on every other input it
signals a validation error, and it never silently degrades. -/
theorem C3_bootstrap_error_iff (ms ys : List (Option ℝ)) :
    (bootstrap_zero_curve ms ys).isOk = true ↔
      (ms.length = ys.length ∧ 2 ≤ (validPairs ms ys).length) := by
  constructor
  · intro h
    unfold bootstrap_zero_curve at h
    by_cases h1 : ms.length ≠ ys.length
    · rw [if_pos h1] at h
      exact absurd h (by simp [isOk_error])
    · rw [if_neg h1] at h
      by_cases h2 : ms.length < 2
      · rw [if_pos h2] at h
        exact absurd h (by simp [isOk_error])
      · rw [if_neg h2] at h
        by_cases h3 : (sortPairs (validPairs ms ys)).length < 2
        · rw [if_pos h3] at h
          exact absurd h (by simp [isOk_error])
        · refine ⟨not_ne_iff.mp h1, ?_⟩
          rw [sortPairs_length] at h3
          omega
  · rintro ⟨h1, h2⟩
    rw [bootstrap_ok ms ys h1 h2]
    rfl

/-- Unfolding of interpolate_curve on inputs that pass both checks. -/
theorem interpolate_ok (B : YieldCurveBootstrapper) (ms rs : List (Option ℝ))
    (target : Option (List ℝ)) (h1 : ms.length = rs.length)
    (h2 : 2 ≤ (validPairs ms rs).length) :
    interpolate_curve B ms rs target =
      (let ps := sortPairs (validPairs ms rs)
       let m := ps.map Prod.fst
       let tms :=
         match target with
         | none =>
           linspace (m.headD 0) (m.getLastD 0)
             ((⌊(m.getLastD 0 - m.headD 0) * 365⌋).toNat + 1)
         | some t => t
       let f : ℝ → ℝ :=
         if B.interpolation_method = "cubic" ∧ 4 ≤ ps.length then B.cubicEval ps
         else if B.interpolation_method = "quadratic" ∧ 3 ≤ ps.length then
           B.quadEval ps
         else linearInterp ps
       .ok (tms, tms.map fun t => npClip (f t)
         (min (listMin (ps.map Prod.snd)) 0)
         (listMax (ps.map Prod.snd) * 1.5))) := by
  have hps : ¬(sortPairs (validPairs ms rs)).length < 2 := by
    rw [sortPairs_length]
    omega
  unfold interpolate_curve
  rw [if_neg (by simpa using h1), if_neg hps]

/-- C4 amended: on every input with matching lengths and at least two valid
points and no target grid, interpolate_curve returns a grid of exactly
floor((max-min)*365)+1 evenly spaced points (point i is
min + i*(max-min)/(count-1)) lying inside [min, max], starting at min and,
whenever the grid has at least two points (equivalently
floor((max-min)*365) >= 1), ending at max; and whenever the clip envelope
[min(min(rates), 0), max(rates)*1.5] is a nonempty interval, every returned
rate lies in it. Both provisos are forced by the counterexample, which has
all rates negative (empty envelope) and a maturity range below one day
(single grid point that does not reach max). -/
theorem C4_interpolate_grid_and_envelope (B : YieldCurveBootstrapper)
    (ms rs : List (Option ℝ)) (h1 : ms.length = rs.length)
    (h2 : 2 ≤ (validPairs ms rs).length) :
    ∃ tms trs : List ℝ,
      interpolate_curve B ms rs none = .ok (tms, trs) ∧
      tms.length =
        (⌊((((sortPairs (validPairs ms rs)).map Prod.fst).getLastD 0) -
          (((sortPairs (validPairs ms rs)).map Prod.fst).headD 0)) *
          365⌋).toNat + 1 ∧
      (∀ i < tms.length, tms.getD i 0 =
        (((sortPairs (validPairs ms rs)).map Prod.fst).headD 0) +
          (i : ℝ) *
            ((((sortPairs (validPairs ms rs)).map Prod.fst).getLastD 0) -
              (((sortPairs (validPairs ms rs)).map Prod.fst).headD 0)) /
            ((tms.length : ℝ) - 1)) ∧
      tms.headD 0 = ((sortPairs (validPairs ms rs)).map Prod.fst).headD 0 ∧
      (2 ≤ tms.length → tms.getLastD 0 =
        ((sortPairs (validPairs ms rs)).map Prod.fst).getLastD 0) ∧
      (∀ t ∈ tms,
        ((sortPairs (validPairs ms rs)).map Prod.fst).headD 0 ≤ t ∧
        t ≤ ((sortPairs (validPairs ms rs)).map Prod.fst).getLastD 0) ∧
      trs.length = tms.length ∧
      (min (listMin ((sortPairs (validPairs ms rs)).map Prod.snd)) 0 ≤
          listMax ((sortPairs (validPairs ms rs)).map Prod.snd) * 1.5 →
        ∀ r ∈ trs,
          min (listMin ((sortPairs (validPairs ms rs)).map Prod.snd)) 0 ≤ r ∧
          r ≤ listMax ((sortPairs (validPairs ms rs)).map Prod.snd) * 1.5) := by
  rw [interpolate_ok B ms rs none h1 h2]
  refine ⟨_, _, rfl, ?_, ?_, ?_, ?_, ?_, ?_, ?_⟩
  · exact linspace_length _ _ _
  · intro i hi
    rw [linspace_length] at hi
    rw [linspace_getD hi, linspace_length]
  · exact linspace_headD _ _ (by omega)
  · intro hlen
    rw [linspace_length] at hlen
    exact linspace_getLastD _ _ hlen
  · intro t ht
    have hne : (sortPairs (validPairs ms rs)).map Prod.fst ≠ [] := by
      have : 2 ≤ ((sortPairs (validPairs ms rs)).map Prod.fst).length := by
        rw [List.length_map, sortPairs_length]
        omega
      intro h0
      rw [h0] at this
      simp at this
    exact linspace_mem
      (sorted_headD_le_getLastD hne (sortPairs_sorted_fst _)) ht
  · exact (List.length_map _ _)
  · intro hlohi r hr
    rcases List.mem_map.mp hr with ⟨t, _, rfl⟩
    exact ⟨le_npClip _ _ _ hlohi, npClip_le _ _ _⟩

/-- A list of pairs already sorted by maturity is left unchanged by the
sorting step. -/
theorem sortPairs_of_sorted {ps : List (ℝ × ℝ)} (h : ps.Sorted byFst) :
    sortPairs ps = ps :=
  h.insertionSort_eq

/-- Witness for the amended C4 at the concrete example of the claim: 1461
grid points, evenly spaced, spanning exactly 1 to 5, with every rate inside
the envelope 0 to 4.9 times 1.5; both provisos of the amended theorem are
discharged here. -/
theorem C4_witness :
    ∃ tms trs : List ℝ,
      interpolate_curve ⟨"cubic", fun _ _ => 0, fun _ _ => 0⟩
        [some 1, some 2, some 5]
        [some (4.5 : ℝ), some 4.7, some 4.9] none = .ok (tms, trs) ∧
      tms.length = 1461 ∧
      (∀ i < tms.length, tms.getD i 0 =
        1 + (i : ℝ) * ((5 : ℝ) - 1) / ((tms.length : ℝ) - 1)) ∧
      tms.headD 0 = 1 ∧
      tms.getLastD 0 = 5 ∧
      (∀ t ∈ tms, (1 : ℝ) ≤ t ∧ t ≤ 5) ∧
      trs.length = 1461 ∧
      (∀ r ∈ trs, (0 : ℝ) ≤ r ∧ r ≤ 4.9 * 1.5) := by
  obtain ⟨tms, trs, hok, hcount, hgrid, hhead, hlast, hmem, hlenr, henv⟩ :=
    C4_interpolate_grid_and_envelope ⟨"cubic", fun _ _ => 0, fun _ _ => 0⟩
      [some 1, some 2, some 5] [some (4.5 : ℝ), some 4.7, some 4.9]
      rfl (by decide)
  have hv3 : validPairs [some 1, some 2, some 5]
      [some (4.5 : ℝ), some 4.7, some 4.9] =
      [((1 : ℝ), (4.5 : ℝ)), (2, 4.7), (5, 4.9)] := rfl
  have hs3 : sortPairs [((1 : ℝ), (4.5 : ℝ)), ((2 : ℝ), (4.7 : ℝ)),
      ((5 : ℝ), (4.9 : ℝ))] = [(1, 4.5), (2, 4.7), (5, 4.9)] :=
    sortPairs_of_sorted (by
      refine List.Pairwise.cons ?_ (List.Pairwise.cons ?_ (by simp))
      · intro b hb
        rcases List.mem_cons.mp hb with rfl | hb2
        · show (1 : ℝ) ≤ 2
          norm_num
        · rcases List.mem_singleton.mp hb2 with rfl
          show (1 : ℝ) ≤ 5
          norm_num
      · intro b hb
        rcases List.mem_singleton.mp hb with rfl
        show (2 : ℝ) ≤ 5
        norm_num)
  have hmfst : ([((1 : ℝ), (4.5 : ℝ)), ((2 : ℝ), (4.7 : ℝ)),
      ((5 : ℝ), (4.9 : ℝ))]).map Prod.fst = [1, 2, 5] := rfl
  have hmsnd : ([((1 : ℝ), (4.5 : ℝ)), ((2 : ℝ), (4.7 : ℝ)),
      ((5 : ℝ), (4.9 : ℝ))]).map Prod.snd = [4.5, 4.7, 4.9] := rfl
  have hh : ([(1 : ℝ), 2, 5]).headD 0 = 1 := rfl
  have hl : ([(1 : ℝ), 2, 5]).getLastD 0 = 5 := rfl
  simp only [hv3, hs3, hmfst, hmsnd, hh, hl] at hcount hgrid hhead hlast
  simp only [hv3, hs3, hmfst, hmsnd, hh, hl] at hmem henv
  have hfl : ((⌊((5 : ℝ) - 1) * 365⌋).toNat + 1) = 1461 := by
    norm_num
    try decide
  rw [hfl] at hcount
  have hlm : listMin [(4.5 : ℝ), 4.7, 4.9] = 4.5 := by
    simp only [listMin, List.foldl]
    norm_num [min_def]
  have hLM : listMax [(4.5 : ℝ), 4.7, 4.9] = 4.9 := by
    simp only [listMax, List.foldl]
    norm_num [max_def]
  rw [hlm, hLM] at henv
  have hmin0 : min (4.5 : ℝ) 0 = 0 :=
    min_eq_right (by norm_num)
  rw [hmin0] at henv
  exact ⟨tms, trs, hok, hcount, hgrid, hhead,
    hlast (by rw [hcount]; norm_num), hmem, hlenr.trans hcount,
    henv (by norm_num)⟩

/-- Counterexample to C4 as stated, exhibiting both failures at one input.
With maturities 1 and 1 + 1/730 (half a day apart) and rates both -1, the
default grid has floor((1/730)*365) + 1 = 1 point, so it does not span up
to the maximum maturity; and since all rates are negative the clip upper
bound max*1.5 = -3/2 lies below the stated lower envelope bound
min(min(rates), 0) = -1, so the single returned rate -3/2 is outside the
stated envelope. -/
theorem C4_counterexample :
    interpolate_curve ⟨"linear", fun _ _ => 0, fun _ _ => 0⟩
        [some 1, some (1 + 1 / 730)] [some (-1 : ℝ), some (-1)] none
      = .ok ([(1 : ℝ)], [(-3 / 2 : ℝ)]) ∧
    ¬(min (listMin [(-1 : ℝ), -1]) 0 ≤ -3 / 2) ∧
    ([(1 : ℝ)]).getLastD 0 ≠ (1 : ℝ) + 1 / 730 := by
  have hv : validPairs [some 1, some (1 + 1 / 730)]
      [some (-1 : ℝ), some (-1)] =
      [((1 : ℝ), (-1 : ℝ)), (1 + 1 / 730, -1)] := rfl
  have hs : sortPairs [((1 : ℝ), (-1 : ℝ)), ((1 + 1 / 730 : ℝ), (-1 : ℝ))] =
      [(1, -1), (1 + 1 / 730, -1)] :=
    sortPairs_of_sorted (by
      constructor
      · intro b hb
        rcases List.mem_singleton.mp hb with rfl
        show (1 : ℝ) ≤ 1 + 1 / 730
        norm_num
      · simp)
  refine ⟨?_, ?_, ?_⟩
  · rw [interpolate_ok ⟨"linear", fun _ _ => 0, fun _ _ => 0⟩
      [some 1, some (1 + 1 / 730)] [some (-1 : ℝ), some (-1)] none rfl
      (by decide)]
    simp only [hv, hs]
    have hmethod : ¬(("linear" : String) = "cubic" ∧
        4 ≤ ([((1 : ℝ), (-1 : ℝ)), (1 + 1 / 730, -1)]).length) := by
      rintro ⟨h, _⟩
      exact absurd h (by decide)
    have hmethod2 : ¬(("linear" : String) = "quadratic" ∧
        3 ≤ ([((1 : ℝ), (-1 : ℝ)), (1 + 1 / 730, -1)]).length) := by
      rintro ⟨h, _⟩
      exact absurd h (by decide)
    simp only [List.map_cons, List.map_nil, if_neg hmethod, if_neg hmethod2]
    have hhd : ([(1 : ℝ), 1 + 1 / 730]).headD 0 = 1 := rfl
    have hld : ([(1 : ℝ), 1 + 1 / 730]).getLastD 0 = 1 + 1 / 730 := rfl
    rw [hhd, hld]
    have hfl : ((⌊((1 + 1 / 730 : ℝ) - 1) * 365⌋).toNat + 1) = 1 := by
      norm_num
    rw [hfl, linspace_one]
    have hmin : listMin [(-1 : ℝ), -1] = -1 := by
      simp [listMin]
    have hmax : listMax [(-1 : ℝ), -1] = -1 := by
      simp [listMax]
    rw [hmin, hmax]
    have hli : ∀ t : ℝ,
        linearInterp [((1 : ℝ), (-1 : ℝ)), (1 + 1 / 730, -1)] t = -1 := by
      intro t
      simp only [linearInterp]
      rw [if_pos (Or.inr trivial)]
      norm_num
    rw [List.map_cons, List.map_nil, hli _]
    unfold npClip
    norm_num
  · have hmin : listMin [(-1 : ℝ), -1] = -1 := by
      simp [listMin]
    rw [hmin]
    norm_num
  · show (1 : ℝ) ≠ 1 + 1 / 730
    norm_num

/-- Lifting two plain float lists into the NaN-aware pair filter changes
nothing: no pair is dropped. -/
theorem validPairs_map_some : ∀ l1 l2 : List ℝ,
    validPairs (l1.map some) (l2.map some) = l1.zip l2
  | [], _ => rfl
  | _ :: _, [] => rfl
  | a :: t1, b :: t2 => by
    show (a, b) :: validPairs (t1.map some) (t2.map some) = (a, b) :: t1.zip t2
    rw [validPairs_map_some t1 t2]

/-- At the knots themselves, mapping an interpolant that reproduces its
knots and then clipping to the rate envelope returns the original rates,
provided the maximum rate is nonnegative so the envelope contains them. -/
theorem clip_map_knots (ms ys : List ℝ) (f : ℝ → ℝ)
    (hlen : ms.length = ys.length)
    (hknots : ∀ p ∈ ms.zip ys, f p.1 = p.2)
    (hmax : 0 ≤ listMax ys) :
    ms.map (fun t => npClip (f t) (min (listMin ys) 0) (listMax ys * 1.5))
      = ys := by
  apply List.ext_getElem
  · rw [List.length_map, hlen]
  · intro i hi1 hi2
    rw [List.getElem_map]
    have hmi : i < ms.length := by simpa using hi1
    have hyi : i < ys.length := hi2
    have hzi : i < (ms.zip ys).length := by
      rw [List.length_zip, hlen, min_self]
      exact hyi
    have hzip_i : (ms.zip ys)[i] = (ms[i], ys[i]) := List.getElem_zip
    have hmem : (ms[i], ys[i]) ∈ ms.zip ys := by
      rw [← hzip_i]
      exact List.getElem_mem hzi
    have hk : f (ms[i]) = ys[i] := hknots (ms[i], ys[i]) hmem
    rw [hk]
    apply npClip_eq_self
    · exact le_trans (min_le_left _ _)
        (listMin_le (List.getElem_mem hyi))
    · have hy_le : ys[i] ≤ listMax ys :=
        le_listMax (List.getElem_mem hyi)
      nlinarith

/-- C5 amended: for the linear and quadratic interpolation methods,
interpolating at exactly the strictly increasing original maturities
reproduces the original rates, provided the maximum input rate is
nonnegative. The quadratic dispatch calls the external scipy backend, kept
abstract in the model, so for that method the statement is conditional on
the backend reproducing its knots when it is invoked (at 3 or more points;
scipy's quadratic interpolating spline has this property, and with 2
points the source falls back to linear). The nonnegativity proviso is
forced by the counterexample: with all rates negative the clip upper bound
max*1.5 lies below the data and the reproduced rates are clipped away. -/
theorem C5_interpolation_idempotent (B : YieldCurveBootstrapper)
    (ms ys : List ℝ)
    (hB : B.interpolation_method = "linear" ∨
      B.interpolation_method = "quadratic")
    (hquad : B.interpolation_method = "quadratic" → 3 ≤ ms.length →
      ∀ p ∈ ms.zip ys, B.quadEval (ms.zip ys) p.1 = p.2)
    (hlen : ms.length = ys.length) (h2 : 2 ≤ ms.length)
    (hsorted : ms.Sorted (· < ·)) (hmax : 0 ≤ listMax ys) :
    interpolate_curve B (ms.map some) (ys.map some) (some ms) =
      .ok (ms, ys) := by
  have hmapfst : (ms.zip ys).map Prod.fst = ms :=
    List.map_fst_zip ms ys (le_of_eq hlen)
  have hmapsnd : (ms.zip ys).map Prod.snd = ys :=
    List.map_snd_zip ms ys (le_of_eq hlen.symm)
  have hzipsorted : (ms.zip ys).Sorted byFst := by
    have h1 : ((ms.zip ys).map Prod.fst).Pairwise (· ≤ ·) := by
      rw [hmapfst]
      exact hsorted.imp le_of_lt
    rw [List.pairwise_map] at h1
    exact h1
  have hsortedlt : ((ms.zip ys).map Prod.fst).Sorted (· < ·) := by
    rw [hmapfst]
    exact hsorted
  have hzlen : (ms.zip ys).length = ms.length := by
    rw [List.length_zip, hlen, min_self]
  have hvp : validPairs (ms.map some) (ys.map some) = ms.zip ys :=
    validPairs_map_some ms ys
  have hlen2 : 2 ≤ (validPairs (ms.map some) (ys.map some)).length := by
    rw [hvp, hzlen]
    exact h2
  rw [interpolate_ok B (ms.map some) (ys.map some) (some ms)
    (by simp [hlen]) hlen2]
  simp only [hvp, sortPairs_of_sorted hzipsorted]
  have hm1 : ¬(B.interpolation_method = "cubic" ∧
      4 ≤ (ms.zip ys).length) := by
    rintro ⟨hc, _⟩
    rcases hB with h | h
    · rw [h] at hc
      exact absurd hc (by decide)
    · rw [h] at hc
      exact absurd hc (by decide)
  rw [if_neg hm1, hmapsnd]
  by_cases hm2 : B.interpolation_method = "quadratic" ∧
      3 ≤ (ms.zip ys).length
  · rw [if_pos hm2]
    have hknots : ∀ p ∈ ms.zip ys, B.quadEval (ms.zip ys) p.1 = p.2 :=
      hquad hm2.1 (by rw [← hzlen]; exact hm2.2)
    rw [clip_map_knots ms ys (B.quadEval (ms.zip ys)) hlen hknots hmax]
  · rw [if_neg hm2]
    have hknots : ∀ p ∈ ms.zip ys, linearInterp (ms.zip ys) p.1 = p.2 :=
      fun p hp => linearInterp_knot (ms.zip ys) hsortedlt p hp
    rw [clip_map_knots ms ys (linearInterp (ms.zip ys)) hlen hknots hmax]

/-- Witness for the amended C5, exercising the quadratic dispatch: a
three-point strictly increasing input with nonnegative rates, with a
backend stub (the piecewise-linear interpolant) that reproduces its knots
as the hypothesis on the abstract scipy backend requires. -/
theorem C5_witness :
    interpolate_curve ⟨"quadratic", fun _ _ => 0, linearInterp⟩
      ([(1 : ℝ), 2, 3].map some) ([(4 : ℝ), 5, 6].map some)
      (some [(1 : ℝ), 2, 3]) = .ok ([(1 : ℝ), 2, 3], [(4 : ℝ), 5, 6]) := by
  have hsorted : ([(1 : ℝ), 2, 3]).Sorted (· < ·) := by
    refine List.Pairwise.cons ?_ (List.Pairwise.cons ?_ (by simp))
    · intro b hb
      rcases List.mem_cons.mp hb with rfl | hb2
      · norm_num
      · rcases List.mem_singleton.mp hb2 with rfl
        norm_num
    · intro b hb
      rcases List.mem_singleton.mp hb with rfl
      norm_num
  refine C5_interpolation_idempotent _ [1, 2, 3] [4, 5, 6] (Or.inr rfl) ?_
    rfl (by decide) hsorted ?_
  · intro _ _ p hp
    refine linearInterp_knot _ ?_ p hp
    have hz : ((([(1 : ℝ), 2, 3]).zip [(4 : ℝ), 5, 6]).map Prod.fst)
        = [1, 2, 3] := rfl
    rw [hz]
    exact hsorted
  · have hfold : listMax [(4 : ℝ), 5, 6] = max (max 4 5) 6 := by
      simp [listMax, List.foldl]
    rw [hfold]
    exact le_trans (by norm_num : (0 : ℝ) ≤ 6) (le_max_right _ _)

/-- Counterexample to C5 as stated: for the linear method on the all
negative curve through (1, -1) and (2, -1), interpolating at exactly the
original maturities returns -3/2 at both knots rather than the original
rate -1, because the clip upper bound is max*1.5 = -3/2. -/
theorem C5_counterexample :
    interpolate_curve ⟨"linear", fun _ _ => 0, fun _ _ => 0⟩
        [some 1, some 2] [some (-1 : ℝ), some (-1)] (some [1, 2]) =
      .ok ([(1 : ℝ), 2], [(-3 / 2 : ℝ), -3 / 2]) ∧ ((-3 / 2 : ℝ) ≠ -1) := by
  have hv : validPairs [some 1, some 2] [some (-1 : ℝ), some (-1)] =
      [((1 : ℝ), (-1 : ℝ)), (2, -1)] := rfl
  have hs : sortPairs [((1 : ℝ), (-1 : ℝ)), ((2 : ℝ), (-1 : ℝ))] =
      [(1, -1), (2, -1)] :=
    sortPairs_of_sorted (by
      constructor
      · intro b hb
        rcases List.mem_singleton.mp hb with rfl
        show (1 : ℝ) ≤ 2
        norm_num
      · simp)
  constructor
  · rw [interpolate_ok ⟨"linear", fun _ _ => 0, fun _ _ => 0⟩
      [some 1, some 2] [some (-1 : ℝ), some (-1)] (some [1, 2]) rfl
      (by decide)]
    simp only [hv, hs]
    have hmethod : ¬(("linear" : String) = "cubic" ∧
        4 ≤ ([((1 : ℝ), (-1 : ℝ)), (2, -1)]).length) := by
      rintro ⟨h, _⟩
      exact absurd h (by decide)
    have hmethod2 : ¬(("linear" : String) = "quadratic" ∧
        3 ≤ ([((1 : ℝ), (-1 : ℝ)), (2, -1)]).length) := by
      rintro ⟨h, _⟩
      exact absurd h (by decide)
    simp only [if_neg hmethod, if_neg hmethod2]
    have hmin : listMin (([((1 : ℝ), (-1 : ℝ)), (2, -1)]).map Prod.snd)
        = -1 := by
      simp [listMin]
    have hmax : listMax (([((1 : ℝ), (-1 : ℝ)), (2, -1)]).map Prod.snd)
        = -1 := by
      simp [listMax]
    rw [hmin, hmax]
    have hli : ∀ t : ℝ, linearInterp [((1 : ℝ), (-1 : ℝ)), (2, -1)] t = -1 := by
      intro t
      simp only [linearInterp]
      rw [if_pos (Or.inr trivial)]
      norm_num
    simp only [List.map_cons, List.map_nil, hli]
    unfold npClip
    norm_num
  · norm_num

/-- C6: validate_curve_data agrees with the first-failing-check reading of
its six ordered checks on every input, and on the concrete example with a
duplicated maturity of 2 it reports the duplicate-maturities reason. -/
theorem C6_validate_check_order (ms ys : List PyVal) (mp : ℕ) :
    validate_curve_data ms ys mp = firstFail (validateChecks ms ys mp) ∧
    validate_curve_data [PyVal.num 1, PyVal.num 2, PyVal.num 2]
        [PyVal.num 3, PyVal.num 4, PyVal.num 5] 3 =
      (false, "Duplicate maturities detected") := by
  constructor
  · unfold validate_curve_data firstFail validateChecks
    by_cases h1 : ms.length ≠ ys.length
    · rw [if_pos h1]
      simp [List.find?, decide_eq_true h1]
    · rw [if_neg h1]
      by_cases h2 : ms.length < mp
      · rw [if_pos h2]
        simp [List.find?, decide_eq_false h1, decide_eq_true h2]
      · rw [if_neg h2]
        by_cases h3 : (ms ++ ys).any PyVal.isNonNumeric = true
        · rw [if_pos h3]
          simp [List.find?, h3, decide_eq_false h1, decide_eq_false h2]
        · rw [if_neg h3]
          rw [Bool.not_eq_true] at h3
          by_cases h4 : ms.any PyVal.isNegative = true
          · rw [if_pos h4]
            simp [List.find?, h3, h4, decide_eq_false h1, decide_eq_false h2]
          · rw [if_neg h4]
            rw [Bool.not_eq_true] at h4
            by_cases h5 : ((ms.zip ys).countP fun p =>
                p.1.isNum && p.2.isNum) < mp
            · rw [if_pos h5]
              simp [List.find?, h3, h4, decide_eq_false h1,
                decide_eq_false h2, decide_eq_true h5]
            · rw [if_neg h5]
              by_cases h6 : (ms.filterMap PyVal.toNum).dedup.length <
                  ((ms.zip ys).countP fun p => p.1.isNum && p.2.isNum)
              · rw [if_pos h6]
                simp [List.find?, h3, h4, decide_eq_false h1,
                  decide_eq_false h2, decide_eq_false h5, decide_eq_true h6]
              · rw [if_neg h6]
                simp [List.find?, h3, h4, decide_eq_false h1,
                  decide_eq_false h2, decide_eq_false h5, decide_eq_false h6]
  · unfold validate_curve_data
    rw [if_neg (show ¬([PyVal.num 1, PyVal.num 2, PyVal.num 2].length ≠
      [PyVal.num 3, PyVal.num 4, PyVal.num 5].length) by decide)]
    rw [if_neg (show ¬([PyVal.num 1, PyVal.num 2, PyVal.num 2].length < 3)
      by decide)]
    have h3 : (([PyVal.num 1, PyVal.num 2, PyVal.num 2] ++
        [PyVal.num 3, PyVal.num 4, PyVal.num 5]).any PyVal.isNonNumeric)
        = false := by decide
    rw [h3, if_neg (show ¬((false : Bool) = true) by decide)]
    have h4 : ([PyVal.num 1, PyVal.num 2, PyVal.num 2].any PyVal.isNegative)
        = false := by
      norm_num [List.any_cons, List.any_nil, PyVal.isNegative]
    rw [h4, if_neg (show ¬((false : Bool) = true) by decide)]
    have h5 : (([PyVal.num 1, PyVal.num 2, PyVal.num 2].zip
        [PyVal.num 3, PyVal.num 4, PyVal.num 5]).countP fun p =>
          p.1.isNum && p.2.isNum) = 3 := by decide
    rw [h5]
    rw [if_neg (show ¬((3 : ℕ) < 3) by decide)]
    have h6 : ([PyVal.num 1, PyVal.num 2, PyVal.num 2].filterMap
        PyVal.toNum).dedup.length = 2 := by
      have hfm : [PyVal.num 1, PyVal.num 2, PyVal.num 2].filterMap
          PyVal.toNum = [(1 : ℝ), 2, 2] := rfl
      rw [hfm]
      have hd1 : ([(1 : ℝ), 2, 2]).dedup = 1 :: ([(2 : ℝ), 2]).dedup := by
        apply List.dedup_cons_of_not_mem
        norm_num
      have hd2 : ([(2 : ℝ), 2]).dedup = ([(2 : ℝ)]).dedup := by
        apply List.dedup_cons_of_mem
        norm_num
      have hd3 : ([(2 : ℝ)]).dedup = [(2 : ℝ)] := by
        apply List.dedup_cons_of_not_mem
        norm_num
      rw [hd1, hd2, hd3]
      rfl
    rw [h6]
    rw [if_pos (show (2 : ℕ) < 3 by decide)]

/-- C7: build_curve is total (it never propagates an exception) and returns
none when no observations exist for the date, when validation fails, when
the bootstrapper signals an error, or when interpolation signals an error;
conversely a none result only arises from one of those four conditions, so
a bootstrapper failure is always converted into a null result. -/
theorem C7_build_curve_null (cubicEval quadEval : List (ℝ × ℝ) → ℝ → ℝ)
    (db : List RawYieldData) (d : ℕ) :
    ((rawForDate db d).isEmpty = true →
      build_curve cubicEval quadEval db d = none) ∧
    ((validate_curve_data (((buildPairs db d).map Prod.fst).map PyVal.num)
        (((buildPairs db d).map Prod.snd).map PyVal.num)
        MIN_DATA_POINTS).1 = false →
      build_curve cubicEval quadEval db d = none) ∧
    (∀ e, bootstrap_zero_curve (((buildPairs db d).map Prod.fst).map some)
        (((buildPairs db d).map Prod.snd).map some) = .error e →
      build_curve cubicEval quadEval db d = none) ∧
    (∀ res e,
      bootstrap_zero_curve (((buildPairs db d).map Prod.fst).map some)
        (((buildPairs db d).map Prod.snd).map some) = .ok res →
      interpolate_curve ⟨BOOTSTRAPPING_INTERPOLATION_METHOD, cubicEval,
        quadEval⟩ (((buildPairs db d).map Prod.fst).map some)
        (res.zero_rates.map some) none = .error e →
      build_curve cubicEval quadEval db d = none) ∧
    (build_curve cubicEval quadEval db d = none →
      (rawForDate db d).isEmpty = true ∨
      (validate_curve_data (((buildPairs db d).map Prod.fst).map PyVal.num)
        (((buildPairs db d).map Prod.snd).map PyVal.num)
        MIN_DATA_POINTS).1 = false ∨
      (∃ e, bootstrap_zero_curve
        (((buildPairs db d).map Prod.fst).map some)
        (((buildPairs db d).map Prod.snd).map some) = .error e) ∨
      (∃ res e,
        bootstrap_zero_curve (((buildPairs db d).map Prod.fst).map some)
          (((buildPairs db d).map Prod.snd).map some) = .ok res ∧
        interpolate_curve ⟨BOOTSTRAPPING_INTERPOLATION_METHOD, cubicEval,
          quadEval⟩ (((buildPairs db d).map Prod.fst).map some)
          (res.zero_rates.map some) none = .error e)) := by
  refine ⟨?_, ?_, ?_, ?_, ?_⟩
  · intro h
    unfold build_curve
    rw [if_pos h]
  · intro h
    unfold build_curve
    by_cases hraw : (rawForDate db d).isEmpty = true
    · rw [if_pos hraw]
    · rw [if_neg hraw, if_pos h]
  · intro e h
    unfold build_curve
    by_cases hraw : (rawForDate db d).isEmpty = true
    · rw [if_pos hraw]
    · rw [if_neg hraw]
      by_cases hval : (validate_curve_data
          (((buildPairs db d).map Prod.fst).map PyVal.num)
          (((buildPairs db d).map Prod.snd).map PyVal.num)
          MIN_DATA_POINTS).1 = false
      · rw [if_pos hval]
      · rw [if_neg hval, h]
  · intro res e hb hi
    unfold build_curve
    by_cases hraw : (rawForDate db d).isEmpty = true
    · rw [if_pos hraw]
    · rw [if_neg hraw]
      by_cases hval : (validate_curve_data
          (((buildPairs db d).map Prod.fst).map PyVal.num)
          (((buildPairs db d).map Prod.snd).map PyVal.num)
          MIN_DATA_POINTS).1 = false
      · rw [if_pos hval]
      · rw [if_neg hval, hb]
        dsimp only
        rw [hi]
  · intro h
    unfold build_curve at h
    by_cases hraw : (rawForDate db d).isEmpty = true
    · exact Or.inl hraw
    · rw [if_neg hraw] at h
      by_cases hval : (validate_curve_data
          (((buildPairs db d).map Prod.fst).map PyVal.num)
          (((buildPairs db d).map Prod.snd).map PyVal.num)
          MIN_DATA_POINTS).1 = false
      · exact Or.inr (Or.inl hval)
      · rw [if_neg hval] at h
        cases hb : bootstrap_zero_curve
            (((buildPairs db d).map Prod.fst).map some)
            (((buildPairs db d).map Prod.snd).map some) with
        | error e => exact Or.inr (Or.inr (Or.inl ⟨e, rfl⟩))
        | ok res =>
          rw [hb] at h
          dsimp only at h
          cases hi : interpolate_curve ⟨BOOTSTRAPPING_INTERPOLATION_METHOD,
              cubicEval, quadEval⟩ (((buildPairs db d).map Prod.fst).map some)
              (res.zero_rates.map some) none with
          | error e =>
            exact Or.inr (Or.inr (Or.inr ⟨res, e, rfl, hi⟩))
          | ok p =>
            obtain ⟨itms, itys⟩ := p
            rw [hi] at h
            dsimp only at h
            exact absurd h (by simp)

/-- Witness for C7: the empty database yields no observations and a null
curve; a single-row database with too few valid points fails validation and
also yields a null curve. -/
theorem C7_witness :
    build_curve (fun _ _ => 0) (fun _ _ => 0) [] 0 = none ∧
    build_curve (fun _ _ => 0) (fun _ _ => 0)
      [⟨"DGS10", "10Y", "treasury", 0, some 4.5⟩] 0 = none := by
  constructor
  · exact (C7_build_curve_null (fun _ _ => 0) (fun _ _ => 0) [] 0).1 rfl
  · refine (C7_build_curve_null (fun _ _ => 0) (fun _ _ => 0)
      [⟨"DGS10", "10Y", "treasury", 0, some 4.5⟩] 0).2.1 ?_
    have hbp : buildPairs [⟨"DGS10", "10Y", "treasury", 0, some 4.5⟩] 0 =
        [((10 : ℝ), (4.5 : ℝ))] := rfl
    have hval : (validate_curve_data [PyVal.num (10 : ℝ)]
        [PyVal.num (4.5 : ℝ)] 3).1 = false := by
      unfold validate_curve_data
      rw [if_neg (show ¬(([PyVal.num (10 : ℝ)]).length ≠
        ([PyVal.num (4.5 : ℝ)]).length) by decide)]
      rw [if_pos (show ([PyVal.num (10 : ℝ)]).length < 3 by decide)]
    rw [hbp]
    simp only [List.map_cons, List.map_nil, MIN_DATA_POINTS]
    exact hval

theorem getD_zero_eq_headD {α : Type} (l : List α) (d : α) :
    l.getD 0 d = l.headD d := by
  cases l <;> rfl

theorem getD_last_eq_getLastD {α : Type} (l : List α) (d : α) :
    l.getD (l.length - 1) d = l.getLastD d := by
  rw [List.getD_eq_getElem?_getD, List.getLastD_eq_getLast? _ _,
    List.getLast?_eq_getElem?]

theorem isEmpty_false_of_length_pos {α : Type} {l : List α}
    (h : 0 < l.length) : l.isEmpty = false := by
  cases l with
  | nil => simp at h
  | cons a t => rfl

/-- C8 amended: for every stored record with an interpolated series and
every max_points of at least 2 that is smaller than the stored array
length, the downsampled series returned by get_curve has exactly max_points
entries (hence at most max_points) and preserves the first and last
maturity value of the source array. The lower bound 2 is forced: with
max_points = 1 the single selected index is 0, so the last value is not
preserved. -/
theorem C8_downsample_bounds (db : List BootstrappedCurveRec) (d mp : ℕ)
    (c : BootstrappedCurveRec) (ims iys : List ℝ)
    (hfind : db.find? (fun r => r.curve_type == "treasury" &&
      r.curve_date == d) = some c)
    (hmeta : c.curve_metadata = some (ims, iys))
    (hmp : 2 ≤ mp) (hlen : mp < ims.length) :
    ∃ resp : CurveResponse,
      get_curve db d (some mp) = some resp ∧
      resp.maturities.length = mp ∧
      resp.maturities.headD 0 = ims.headD 0 ∧
      resp.maturities.getLastD 0 = ims.getLastD 0 := by
  have hcond : 0 < mp ∧ ims.isEmpty = false ∧ mp < ims.length :=
    ⟨by omega, isEmpty_false_of_length_pos (by omega), hlen⟩
  have hdslen : ((downsampleIndices ims.length mp).map
      fun i => ims.getD i 0).length = mp := by
    unfold downsampleIndices
    simp
  unfold get_curve
  rw [hfind]
  dsimp only
  rw [hmeta]
  dsimp only [Option.map]
  rw [if_pos hcond]
  dsimp only
  rw [isEmpty_false_of_length_pos (show 0 <
    ((downsampleIndices ims.length mp).map fun i => ims.getD i 0).length
    by omega)]
  rw [if_neg (show ¬((false : Bool) = true) by decide)]
  refine ⟨_, rfl, ?_, ?_, ?_⟩
  · exact hdslen
  · unfold downsampleIndices
    rw [List.map_map]
    rw [headD_range_map _ (by omega : 0 < mp)]
    simp only [Function.comp]
    rw [Nat.zero_mul, Nat.zero_div, getD_zero_eq_headD]
  · unfold downsampleIndices
    rw [List.map_map]
    rw [getLastD_range_map _ (by omega : 0 < mp)]
    simp only [Function.comp]
    rw [Nat.mul_div_cancel_left _ (by omega : 0 < mp - 1),
      getD_last_eq_getLastD]

/-- Witness for the amended C8: a three-point interpolated series
downsampled to two points keeps the first and last maturity. -/
theorem C8_witness :
    ∃ resp : CurveResponse,
      get_curve [⟨"treasury", 0, [(1 : ℝ), 2], [(3 : ℝ), 4], none, none,
          some ([(10 : ℝ), 20, 30], [(5 : ℝ), 6, 7])⟩] 0 (some 2)
        = some resp ∧
      resp.maturities.length = 2 ∧
      resp.maturities.headD 0 = ([(10 : ℝ), 20, 30]).headD 0 ∧
      resp.maturities.getLastD 0 = ([(10 : ℝ), 20, 30]).getLastD 0 :=
  C8_downsample_bounds _ 0 2 _ [(10 : ℝ), 20, 30] [(5 : ℝ), 6, 7]
    rfl rfl (by omega) (by decide)

/-- Counterexample to C8 as stated: with max_points = 1 (positive and
smaller than the stored length 2) the downsampled series is the single
first point, so its last maturity 0 differs from the source last maturity
1. -/
theorem C8_counterexample :
    (get_curve [⟨"treasury", 0, [(9 : ℝ)], [(9 : ℝ)], none, none,
        some ([(0 : ℝ), 1], [(5 : ℝ), 6])⟩] 0 (some 1)).map
      (fun r => r.maturities) = some [(0 : ℝ)] ∧
    ([(0 : ℝ), 1]).getLastD 0 = 1 ∧
    (([(0 : ℝ)]).getLastD 0 ≠ ([(0 : ℝ), 1]).getLastD 0) := by
  refine ⟨rfl, rfl, ?_⟩
  show (0 : ℝ) ≠ 1
  norm_num

/-- C9 amended: for at least 3 rates, smooth_curve applies a centered
moving average whose window is max(3, int(len*factor)) forced odd, where
int() is truncation toward zero as the source performs it (the claim said
round, which differs, for example, at len*factor = 5.5); points within half
a window of either boundary are unchanged and interior points carry the
full-window mean. -/
theorem C9_smooth_moving_average (ms rs : List ℝ) (sf : ℝ)
    (h3 : 3 ≤ rs.length) :
    (smooth_curve ms rs sf).length = rs.length ∧
    ∀ i < rs.length,
      ((i < smoothWindow rs sf / 2 ∨
          rs.length - smoothWindow rs sf / 2 ≤ i) →
        (smooth_curve ms rs sf).getD i 0 = rs.getD i 0) ∧
      (smoothWindow rs sf / 2 ≤ i → i < rs.length - smoothWindow rs sf / 2 →
        (smooth_curve ms rs sf).getD i 0 =
          ((rs.drop (i - smoothWindow rs sf / 2)).take
            (smoothWindow rs sf)).sum / (smoothWindow rs sf : ℝ)) := by
  have hnot : ¬rs.length < 3 := by omega
  constructor
  · unfold smooth_curve
    rw [if_neg hnot]
    simp
  · intro i hi
    constructor
    · intro hbound
      unfold smooth_curve
      rw [if_neg hnot]
      rw [getD_range_map _ hi]
      rw [if_neg (by omega)]
    · intro hlo hhi
      unfold smooth_curve
      rw [if_neg hnot]
      rw [getD_range_map _ hi]
      rw [if_pos ⟨hlo, hhi⟩]

/-- Witness for the amended C9 at a concrete three-point input. -/
theorem C9_witness :
    (smooth_curve [] [(1 : ℝ), 2, 3] (1 / 10)).length =
        ([(1 : ℝ), 2, 3]).length ∧
    ∀ i < ([(1 : ℝ), 2, 3]).length,
      ((i < smoothWindow [(1 : ℝ), 2, 3] (1 / 10) / 2 ∨
          ([(1 : ℝ), 2, 3]).length -
            smoothWindow [(1 : ℝ), 2, 3] (1 / 10) / 2 ≤ i) →
        (smooth_curve [] [(1 : ℝ), 2, 3] (1 / 10)).getD i 0 =
          ([(1 : ℝ), 2, 3]).getD i 0) ∧
      (smoothWindow [(1 : ℝ), 2, 3] (1 / 10) / 2 ≤ i →
        i < ([(1 : ℝ), 2, 3]).length -
          smoothWindow [(1 : ℝ), 2, 3] (1 / 10) / 2 →
        (smooth_curve [] [(1 : ℝ), 2, 3] (1 / 10)).getD i 0 =
          ((([(1 : ℝ), 2, 3]).drop
            (i - smoothWindow [(1 : ℝ), 2, 3] (1 / 10) / 2)).take
            (smoothWindow [(1 : ℝ), 2, 3] (1 / 10))).sum /
            (smoothWindow [(1 : ℝ), 2, 3] (1 / 10) : ℝ)) :=
  C9_smooth_moving_average [] [(1 : ℝ), 2, 3] (1 / 10) (by decide)

/-- Counterexample to C9 as stated: at 10 rates and factor 0.55 the source
window is max(3, int(5.5)) = 5 while the claim prescribes max(3, round(5.5))
= 6, forced odd to 7; at index 3 the source mean over the 5-window of the
input 7,0,...,0 is 0 while the claim value over the 7-window is 1. -/
theorem C9_counterexample :
    (smooth_curve [] [(7 : ℝ), 0, 0, 0, 0, 0, 0, 0, 0, 0] (11 / 20)).getD 3 0
        = 0 ∧
    (smooth_curve_claim [(7 : ℝ), 0, 0, 0, 0, 0, 0, 0, 0, 0] (11 / 20)).getD
        3 0 = 1 ∧
    ((0 : ℝ) ≠ 1) := by
  have hlen : ([(7 : ℝ), 0, 0, 0, 0, 0, 0, 0, 0, 0]).length = 10 := rfl
  have hw : smoothWindow [(7 : ℝ), 0, 0, 0, 0, 0, 0, 0, 0, 0] (11 / 20)
      = 5 := by
    unfold smoothWindow
    rw [hlen]
    have hfl : Int.toNat ⌊((10 : ℕ) : ℝ) * (11 / 20)⌋ = 5 := by
      have h5 : ⌊((10 : ℕ) : ℝ) * (11 / 20)⌋ = 5 := by norm_num
      rw [h5]
      rfl
    rw [hfl]
    decide
  have hwc : smoothWindowClaim [(7 : ℝ), 0, 0, 0, 0, 0, 0, 0, 0, 0] (11 / 20)
      = 7 := by
    unfold smoothWindowClaim
    rw [hlen]
    have hro : (round (((10 : ℕ) : ℝ) * (11 / 20))).toNat = 6 := by
      have h6 : round (((10 : ℕ) : ℝ) * (11 / 20)) = 6 := by
        rw [round_eq]
        norm_num
      rw [h6]
      rfl
    rw [hro]
    decide
  refine ⟨?_, ?_, by norm_num⟩
  · unfold smooth_curve
    rw [if_neg (show ¬([(7 : ℝ), 0, 0, 0, 0, 0, 0, 0, 0, 0]).length < 3
      by decide)]
    rw [hw, hlen]
    rw [getD_range_map _ (show 3 < 10 by decide)]
    rw [if_pos (show (5 : ℕ) / 2 ≤ 3 ∧ 3 < 10 - (5 : ℕ) / 2 by decide)]
    norm_num [List.drop, List.take, List.sum_cons]
  · unfold smooth_curve_claim
    rw [if_neg (show ¬([(7 : ℝ), 0, 0, 0, 0, 0, 0, 0, 0, 0]).length < 3
      by decide)]
    rw [hwc, hlen]
    rw [getD_range_map _ (show 3 < 10 by decide)]
    rw [if_pos (show (7 : ℕ) / 2 ≤ 3 ∧ 3 < 10 - (7 : ℕ) / 2 by decide)]
    norm_num [List.drop, List.take, List.sum_cons]

/-- C10: smooth_curve returns its input unchanged when fewer than 3 rates
are supplied, and for every input the output has the length of the input
rates. -/
theorem C10_smooth_length (ms rs : List ℝ) (sf : ℝ) :
    (rs.length < 3 → smooth_curve ms rs sf = rs) ∧
    (smooth_curve ms rs sf).length = rs.length := by
  constructor
  · intro h
    unfold smooth_curve
    rw [if_pos h]
  · unfold smooth_curve
    split
    · rfl
    · simp

/-- Witness for C10 at a concrete two-point input. -/
theorem C10_witness :
    smooth_curve [] [(1 : ℝ), 2] (1 / 2) = [(1 : ℝ), 2] ∧
    (smooth_curve [] [(1 : ℝ), 2] (1 / 2)).length = 2 :=
  ⟨(C10_smooth_length [] [(1 : ℝ), 2] (1 / 2)).1 (by decide),
   (C10_smooth_length [] [(1 : ℝ), 2] (1 / 2)).2⟩

end BondCurve
